import Mathlib

set_option linter.unusedVariables false

/-!
Verification of the ApertureAI image-edit orchestration subsystem.

The definitions below are a shallow embedding of the TypeScript source:
* the parameter scaler (`scaledParams` from the editor client),
* the square-canvas adapter (`padToSquare` / `unpadFromSquare` from
  `server/openai.ts`), modelled at the dimension level,
* the dimension probe (`getImageDimensionsFromBuffer` from
  `server/image-storage.ts`),
* the persistent store (`DatabaseStorage` from `server/auth.ts`) and the
  orchestrator routes `POST /api/generate/:id` and
  `POST /api/natural-edit/:id` from `server/routes.ts`.

JavaScript numbers are modelled as rationals (all values involved are exact
small decimals), `Math.round` as Mathlib's `round` (both compute
`⌊x + 1/2⌋`), nullable values as `Option`, and fallible operations as
`Option`/`Except`.
-/

namespace Aperture

/-! ## Parameter scaler (client editor, `scaledParams`) -/

/-- The Sharp parameter vector (`SharpParams` in `server/openai.ts`):
brightness, contrast, saturation ∈ [-50,50], hue ∈ [-180,180],
sharpen ∈ [0,10], noise ∈ [0,100]. Fields are JS numbers, modelled as ℚ. -/
structure SharpParams where
  brightness : ℚ
  contrast : ℚ
  saturation : ℚ
  hue : ℚ
  sharpen : ℚ
  noise : ℚ
deriving DecidableEq, Repr

/-- The all-zero adjustment vector. -/
def SharpParams.zero : SharpParams :=
  { brightness := 0, contrast := 0, saturation := 0, hue := 0, sharpen := 0, noise := 0 }

/-- JavaScript `Math.round`: round half toward positive infinity,
`⌊x + 1/2⌋`. Written through `Rat.num`/`Rat.den` (the explicit form of
`Rat.floor`) so that it evaluates on concrete inputs. -/
def jsRound (x : ℚ) : ℤ :=
  (x + 1 / 2).num / ((x + 1 / 2).den : ℤ)

/-- The strength scaler from the editor client (both the slider path and the
button path use the identical formula):
`strengthFactor = strength / 50`, each field multiplied by the factor,
integer fields via `Math.round`, sharpen via `Math.round(x*10)/10`. -/
def scaledParams (base : SharpParams) (strength : ℚ) : SharpParams :=
  let strengthFactor : ℚ := strength / 50
  { brightness := (jsRound (base.brightness * strengthFactor) : ℤ)
    contrast := (jsRound (base.contrast * strengthFactor) : ℤ)
    saturation := (jsRound (base.saturation * strengthFactor) : ℤ)
    hue := (jsRound (base.hue * strengthFactor) : ℤ)
    sharpen := (jsRound (base.sharpen * strengthFactor * 10) : ℤ) / 10
    noise := (jsRound (base.noise * strengthFactor) : ℤ) }

/-- The exact (pre-rounding) scaling: the arguments of `Math.round` in the
source formula, i.e. each field multiplied by `strength / 50`. -/
def scaledParamsExact (base : SharpParams) (strength : ℚ) : SharpParams :=
  let strengthFactor : ℚ := strength / 50
  { brightness := base.brightness * strengthFactor
    contrast := base.contrast * strengthFactor
    saturation := base.saturation * strengthFactor
    hue := base.hue * strengthFactor
    sharpen := base.sharpen * strengthFactor
    noise := base.noise * strengthFactor }

/-! ## Square-canvas adapter (`server/openai.ts`) -/

/-- Pixel dimensions of an image buffer. -/
structure Dims where
  width : ℕ
  height : ℕ
deriving DecidableEq, Repr

/-- `PadInfo` from `server/openai.ts`: how a `width×height` image sits
centred inside an `S×S` canvas. -/
structure PadInfo where
  S : ℕ
  left : ℕ
  top : ℕ
  width : ℕ
  height : ℕ
deriving DecidableEq, Repr

/-- sharp's `extract`: crops an exact pixel rectangle; errors (sharp throws
`extract_area: bad extract area`) when the rectangle exceeds the image. -/
def extract (d : Dims) (left top width height : ℕ) : Option Dims :=
  if left + width ≤ d.width ∧ top + height ≤ d.height then
    some { width := width, height := height }
  else
    none

/-- sharp's `resize(w, h)`: produces a `w×h` image; errors when a target
dimension is zero. -/
def resize (w h : ℕ) : Option Dims :=
  if w = 0 ∨ h = 0 then none else some { width := w, height := h }

/-- `padToSquare` (dimension level): `S = max(W,H)`, `left = ⌊(S-W)/2⌋`,
`top = ⌊(S-H)/2⌋`; extends the canvas by `top/bottom/left/right` margins
with transparent fill. Returns the square dims and the `PadInfo`. -/
def padToSquare (d : Dims) : Dims × PadInfo :=
  let W := d.width
  let H := d.height
  let S := max W H
  let left := (S - W) / 2
  let top := (S - H) / 2
  let square : Dims :=
    { width := W + left + (S - W - left), height := H + top + (S - H - top) }
  (square, { S := S, left := left, top := top, width := W, height := H })

/-- `unpadFromSquare` (dimension level): first uniformly resize the returned
square (whatever its native size) to `S×S`, then crop the
`[left, top, width, height]` rectangle. -/
def unpadFromSquare (returned : Dims) (pad : PadInfo) : Option Dims :=
  (resize pad.S pad.S).bind fun scaled =>
    extract scaled pad.left pad.top pad.width pad.height

/-! ## Dimension probe (`server/image-storage.ts`) -/

/-- `Buffer.readUInt32BE(off)`: big-endian 32-bit read of four bytes
starting at `off` (bytes are 0–255; out-of-range indices read as 0, the
callers guard the length). -/
def readUInt32BE (buffer : List ℕ) (off : ℕ) : ℕ :=
  buffer.getD off 0 * 2 ^ 24 + buffer.getD (off + 1) 0 * 2 ^ 16 +
    buffer.getD (off + 2) 0 * 2 ^ 8 + buffer.getD (off + 3) 0

/-- `ImageStorage.getImageDimensionsFromBuffer`: for a PNG buffer longer
than 24 bytes, read width/height from bytes 16–23; otherwise return the
fixed fallback 1024×1024. -/
def getImageDimensionsFromBuffer (buffer : List ℕ) (mimeType : String) : ℕ × ℕ :=
  if mimeType = "image/png" ∧ buffer.length > 24 then
    (readUInt32BE buffer 16, readUInt32BE buffer 20)
  else
    (1024, 1024)

/-- Big-endian 4-byte encoding of a 32-bit value. -/
def be32 (n : ℕ) : List ℕ :=
  [n / 2 ^ 24 % 256, n / 2 ^ 16 % 256, n / 2 ^ 8 % 256, n % 256]

/-- A minimal well-formed PNG prefix: 8-byte signature, IHDR chunk length
and type, then the 4-byte big-endian width (bytes 16–19) and height
(bytes 20–23) and the bit-depth byte. -/
def pngHeader (w h : ℕ) : List ℕ :=
  [137, 80, 78, 71, 13, 10, 26, 10, 0, 0, 0, 13, 73, 72, 68, 82] ++
    be32 w ++ be32 h ++ [8]

/-! ## Persistent store (`server/auth.ts`, `DatabaseStorage`) -/

/-- A row of the `edits` table. Image ids are ℕ (opaque blob-store ids),
nullable columns are `Option`. -/
structure EditRow where
  id : ℕ
  originalImageId : ℕ
  currentImageId : ℕ
  width : ℕ
  height : ℕ
  prompt : String
  refinedPrompt : Option String
  status : String
  effectStrength : ℤ
  title : String
deriving DecidableEq, Repr

/-- A row of the `strength_cache` table (AI Remix cache). -/
structure StrengthCacheRow where
  editId : ℕ
  strength : ℤ
  imageId : ℕ
deriving DecidableEq, Repr

/-- A row of the `edit_history` table (Natural Edit ledger/cache).
`params` holds the cache key `JSON.stringify(finalParams)`; stringify of the
fixed-shape params object is determined by the numeric field values, so the
key is modelled by the `SharpParams` value itself. -/
structure EditHistoryRow where
  editId : ℕ
  imageId : ℕ
  effectStrength : ℤ
  params : SharpParams
  sequence : ℤ
deriving DecidableEq, Repr

/-- The persistent state: the three tables plus the blob store.
`images` is the set of stored blob ids; `nextImageId` is the fresh-id
supply used by `ImageStorage.saveImage`. -/
structure Store where
  edits : List EditRow
  strengthCache : List StrengthCacheRow
  editHistory : List EditHistoryRow
  images : List ℕ
  nextImageId : ℕ
deriving DecidableEq, Repr

/-- `storage.getEdit`: `select ... where eq(edits.id, id)`, first row. -/
def getEdit (st : Store) (id : ℕ) : Option EditRow :=
  (st.edits.filter (fun e => e.id = id)).head?

/-- The row update performed by `storage.updateEditResult`: always sets
`status` and `currentImageId`; sets `prompt`, `refinedPrompt`,
`effectStrength` only when the argument is not `undefined`. -/
def applyEditResult (e : EditRow) (currentImageId : ℕ) (status : String)
    (prompt refinedPrompt : Option String) (effectStrength : Option ℤ) : EditRow :=
  { e with
    currentImageId := currentImageId
    status := status
    prompt := prompt.getD e.prompt
    refinedPrompt :=
      match refinedPrompt with
      | some rp => some rp
      | none => e.refinedPrompt
    effectStrength := effectStrength.getD e.effectStrength }

/-- `storage.updateEditResult`: `update edits set ... where eq(edits.id, id)`. -/
def updateEditResult (st : Store) (id : ℕ) (currentImageId : ℕ) (status : String)
    (prompt refinedPrompt : Option String) (effectStrength : Option ℤ) : Store :=
  { st with
    edits := st.edits.map fun e =>
      if e.id = id then
        applyEditResult e currentImageId status prompt refinedPrompt effectStrength
      else e }

/-- `storage.getCachedImageForStrength`: first row matching
`(editId, strength)`. -/
def getCachedImageForStrength (st : Store) (editId : ℕ) (strength : ℤ) :
    Option StrengthCacheRow :=
  (st.strengthCache.filter (fun c => c.editId = editId ∧ c.strength = strength)).head?

/-- `storage.saveCachedImage`: plain insert. -/
def saveCachedImage (st : Store) (c : StrengthCacheRow) : Store :=
  { st with strengthCache := st.strengthCache ++ [c] }

/-- `storage.deleteStrengthCacheForEdit`: delete all rows of the edit. -/
def deleteStrengthCacheForEdit (st : Store) (editId : ℕ) : Store :=
  { st with strengthCache := st.strengthCache.filter (fun c => ¬ c.editId = editId) }

/-- `storage.getCachedNaturalEdit`: first row matching
`(editId, params, effectStrength)`. -/
def getCachedNaturalEdit (st : Store) (editId : ℕ) (params : SharpParams)
    (strength : ℤ) : Option EditHistoryRow :=
  (st.editHistory.filter
    (fun e => e.editId = editId ∧ e.params = params ∧ e.effectStrength = strength)).head?

/-- `storage.saveNaturalEditHistory`: plain insert. -/
def saveNaturalEditHistory (st : Store) (e : EditHistoryRow) : Store :=
  { st with editHistory := st.editHistory ++ [e] }

/-- The ledger sequences recorded for one edit. -/
def seqsForEdit (st : Store) (editId : ℕ) : List ℤ :=
  (st.editHistory.filter (fun e => e.editId = editId)).map (fun e => e.sequence)

/-- `storage.getNextSequence`: `select ... where editId orderBy desc(sequence)
limit 1`, then `sequence + 1`, or `1` when no row exists. A plain read —
no transaction or store-level increment around it. -/
def getNextSequence (st : Store) (editId : ℕ) : ℤ :=
  match (seqsForEdit st editId).max? with
  | some m => m + 1
  | none => 1

/-- `ImageStorage.saveImage`: stores the bytes under a fresh id and returns
the id. -/
def saveImage (st : Store) : Store × ℕ :=
  ({ st with images := st.images ++ [st.nextImageId], nextImageId := st.nextImageId + 1 },
    st.nextImageId)

/-- Observation of an edit's status by a poller (`GET /api/edits/:id`). -/
def editStatus (st : Store) (id : ℕ) : Option String :=
  (getEdit st id).map (fun e => e.status)

/-- Observation of an edit's current image by a poller. -/
def editImage (st : Store) (id : ℕ) : Option ℕ :=
  (getEdit st id).map (fun e => e.currentImageId)

/-! ## Orchestrator routes (`server/routes.ts`) -/

/-- JS truthiness on a nullable string: `null`/`undefined` and `""` are
falsy. `jsTruthy o` is `o` when truthy, `none` otherwise (this is
`o || undefined`). -/
def jsTruthy : Option String → Option String
  | some s => if s = "" then none else some s
  | none => none

/-- JS `o || d` for a nullable string `o` and default `d`. -/
def jsOr (o : Option String) (d : String) : String :=
  (jsTruthy o).getD d

/-- Synchronous request rejections. -/
inductive HttpReject
  | badRequest
  | notFound
deriving DecidableEq, Repr

/-- Body of `POST /api/generate/:id`. -/
structure GenerateRequest where
  id : ℕ
  prompt : String
  refineFromCurrent : Bool
  effectStrength : Option ℤ
  clearCache : Bool
deriving DecidableEq, Repr

/-- State captured when the synchronous phase of `POST /api/generate/:id`
accepts a request: the updated store, the edit row as fetched before the
attempt (the closure variable `edit`), and the strength percent. -/
structure GenSyncOk where
  store : Store
  edit : EditRow
  strengthPercent : ℤ
deriving Repr

/-- The synchronous phase of `POST /api/generate/:id`: validate the prompt,
fetch the edit, clear the strength cache when `clearCache` is set or the
prompt changed, and set `status = processing` before the asynchronous
attempt starts. -/
def generateSync (st : Store) (req : GenerateRequest) : Except HttpReject GenSyncOk :=
  if req.prompt = "" then .error .badRequest
  else
    match getEdit st req.id with
    | none => .error .notFound
    | some edit =>
      let st1 :=
        if req.clearCache = true ∨ req.prompt ≠ edit.prompt then
          deleteStrengthCacheForEdit st req.id
        else st
      let strengthPercent := req.effectStrength.getD 50
      let st2 := updateEditResult st1 req.id edit.currentImageId "processing"
        (some req.prompt) (jsTruthy edit.refinedPrompt) (some strengthPercent)
      .ok ⟨st2, edit, strengthPercent⟩

/-- Result of the asynchronous attempt: the final store and the number of
`generateImageWithStrength` calls (upstream generation) it made. -/
structure AsyncResult where
  store : Store
  generateCalls : ℕ
deriving Repr

/-- The asynchronous attempt of `POST /api/generate/:id` (the IIFE body):
probe the strength cache; on a hit complete from the cached image with no
upstream call and no new cache entry; on a miss load the source image,
call the upstream generator (`gen` maps the call index to `none` for a
failure/timeout or `some refinedPrompt` for success), save the result,
insert the cache entry and complete; any error resolves to `failed`
keeping the pre-attempt `currentImageId`. -/
def generateAsync (gen : ℕ → Option String) (callBase : ℕ) (st : Store)
    (req : GenerateRequest) (edit : EditRow) (strengthPercent : ℤ) : AsyncResult :=
  match getCachedImageForStrength st req.id strengthPercent with
  | some cached =>
    let refinedPromptToUse := jsOr edit.refinedPrompt req.prompt
    { store := updateEditResult st req.id cached.imageId "completed"
        (some req.prompt) (some refinedPromptToUse) (some strengthPercent)
      generateCalls := 0 }
  | none =>
    let sourceId := if req.refineFromCurrent then edit.currentImageId else edit.originalImageId
    if st.images.contains sourceId then
      match gen callBase with
      | none =>
        { store := updateEditResult st req.id edit.currentImageId "failed" none none none
          generateCalls := 1 }
      | some generatedRefined =>
        let refinedPromptToUse : String :=
          match jsTruthy edit.refinedPrompt with
          | some r => r
          | none => generatedRefined
        let saved := saveImage st
        let st1 := saved.1
        let newImageId := saved.2
        let st2 := saveCachedImage st1 ⟨req.id, strengthPercent, newImageId⟩
        { store := updateEditResult st2 req.id newImageId "completed"
            (some req.prompt) (some refinedPromptToUse) (some strengthPercent)
          generateCalls := 1 }
    else
      { store := updateEditResult st req.id edit.currentImageId "failed" none none none
        generateCalls := 0 }

/-- Observable outcome of one `POST /api/generate/:id` request, the
asynchronous attempt run to completion. -/
structure GenerateOutcome where
  store : Store
  rejected : Option HttpReject
  generateCalls : ℕ
deriving Repr

/-- `POST /api/generate/:id`: the synchronous phase followed by the
asynchronous attempt. -/
def runGenerate (gen : ℕ → Option String) (callBase : ℕ) (st : Store)
    (req : GenerateRequest) : GenerateOutcome :=
  match generateSync st req with
  | .error e => { store := st, rejected := some e, generateCalls := 0 }
  | .ok r =>
    let a := generateAsync gen callBase r.store req r.edit r.strengthPercent
    { store := a.store, rejected := none, generateCalls := a.generateCalls }

/-- The same generative request issued twice in sequence: the second run
starts from the first run's final store, with the upstream call counter
carried over. -/
def runGenerateTwice (gen : ℕ → Option String) (st : Store)
    (req : GenerateRequest) : GenerateOutcome × GenerateOutcome :=
  let o1 := runGenerate gen 0 st req
  (o1, runGenerate gen o1.generateCalls o1.store req)

/-- Body of `POST /api/natural-edit/:id`. `prompt = ""` models an absent
prompt. -/
structure NaturalEditRequest where
  id : ℕ
  params : Option SharpParams
  prompt : String
  selectedLabels : List String
  suggestionLabel : Option String
  refineFromCurrent : Bool
  strengthPercent : Option ℤ
deriving Repr

/-- Observable outcome of one `POST /api/natural-edit/:id` request.
`analyzeCalls` counts `analyzePromptToSharpParams` invocations (external
vision service), `sharpCalls` counts `applySharpParams` invocations. -/
structure NaturalEditOutcome where
  store : Store
  rejected : Option HttpReject
  responseImageId : Option ℕ
  responseCached : Bool
  analyzeCalls : ℕ
  sharpCalls : ℕ
deriving Repr

/-- `POST /api/natural-edit/:id`: validate, fetch the edit, load the source
image, determine the final params (direct, or inferred by the vision
service — `inferParams` is the oracle for the latter), probe the
edit-history cache by `(editId, paramsKey, strength)`; on a hit complete
from the cached image with no processing and no new ledger entry; on a
miss apply the Sharp pipeline, save the image, assign the next ledger
sequence, insert the ledger row and complete. -/
def runNaturalEdit (inferParams : SharpParams) (st : Store)
    (req : NaturalEditRequest) : NaturalEditOutcome :=
  if req.params = none ∧ req.prompt.trim = "" then
    ⟨st, some .badRequest, none, false, 0, 0⟩
  else
    match getEdit st req.id with
    | none => ⟨st, some .notFound, none, false, 0, 0⟩
    | some edit =>
      let sourceImageId :=
        if req.refineFromCurrent then edit.currentImageId else edit.originalImageId
      if st.images.contains sourceImageId then
        let finalParams := req.params.getD inferParams
        let analyzeCalls := if req.params.isSome then 0 else 1
        let effectiveStrength := req.strengthPercent.getD 100
        let label := jsOr req.suggestionLabel
          (if req.prompt ≠ "" then "Natural edit: " ++ req.prompt else "Natural edit")
        match getCachedNaturalEdit st req.id finalParams effectiveStrength with
        | some cached =>
          let st1 := updateEditResult st req.id cached.imageId "completed"
            (some label) (some "") (some effectiveStrength)
          ⟨st1, none, some cached.imageId, true, analyzeCalls, 0⟩
        | none =>
          let saved := saveImage st
          let st1 := saved.1
          let newImageId := saved.2
          let nextSequence := getNextSequence st1 req.id
          let st2 := saveNaturalEditHistory st1
            ⟨req.id, newImageId, effectiveStrength, finalParams, nextSequence⟩
          let st3 := updateEditResult st2 req.id newImageId "completed"
            (some label) (some "") (some effectiveStrength)
          ⟨st3, none, some newImageId, false, analyzeCalls, 1⟩
      else
        ⟨st, some .notFound, none, false, 0, 0⟩

/-- Two concurrent `POST /api/natural-edit/:id` requests on the same edit,
both past the cache probe on the miss path. Every `await` in the handler is
a suspension point and `getNextSequence` is a plain read, so the schedule
in which both `getNextSequence` reads resolve before either
`saveNaturalEditHistory` insert commits is a legal interleaving; this
definition is that schedule. -/
def runTwoNaturalEditsRace (st : Store) (id : ℕ) (pA pB : SharpParams)
    (sA sB : ℤ) : Store :=
  let savedA := saveImage st
  let savedB := saveImage savedA.1
  let seqA := getNextSequence savedB.1 id
  let seqB := getNextSequence savedB.1 id
  let st1 := saveNaturalEditHistory savedB.1 ⟨id, savedA.2, sA, pA, seqA⟩
  saveNaturalEditHistory st1 ⟨id, savedB.2, sB, pB, seqB⟩

/-! ## `generateImageWithStrength` control flow (`server/openai.ts`) -/

/-- Externally visible events of one `generateImageWithStrength` attempt. -/
inductive GWSEvent
  | refineCall
  | decodeFail
  | executeCall
deriving DecidableEq, Repr

/-- Trace and result of one `generateImageWithStrength` attempt. -/
structure GWSRun where
  events : List GWSEvent
  ok : Bool
deriving DecidableEq, Repr

/-- `generateImageWithStrength` step order: (1) `PromptEngineer.refine` —
an external vision call, whose failure is caught and falls back to the
user prompt; (2) `padToSquare` — the source image is decoded here
(`sharp(buf).metadata()`), an unreadable image throwing the decode error;
(3) `Executor.execute` — the external image-generation call; (4)
`unpadFromSquare` with the `PadInfo` of the target dimensions.
`decode` is the source image's dimensions when it is readable. -/
def generateImageWithStrengthTrace (decode : Option Dims) (refineOk execOk : Bool)
    (targetWidth targetHeight : ℕ) : GWSRun :=
  let events1 := [GWSEvent.refineCall]
  let _refineFellBack := refineOk = false
  match decode with
  | none => { events := events1 ++ [GWSEvent.decodeFail], ok := false }
  | some d =>
    let _padded := padToSquare d
    let events2 := events1 ++ [GWSEvent.executeCall]
    if execOk then
      let S := max targetWidth targetHeight
      let targetPad : PadInfo :=
        { S := S, left := (S - targetWidth) / 2, top := (S - targetHeight) / 2,
          width := targetWidth, height := targetHeight }
      { events := events2, ok := (unpadFromSquare ⟨1024, 1024⟩ targetPad).isSome }
    else
      { events := events2, ok := false }

/-! ## Concrete fixtures (closed inputs for evaluating the model) -/

/-- A concrete edit row: a 1200×800 upload whose last attempt completed. -/
def demoEdit : EditRow :=
  { id := 1, originalImageId := 0, currentImageId := 0, width := 1200, height := 800,
    prompt := "old", refinedPrompt := none, status := "completed", effectStrength := 50,
    title := "demo" }

/-- A store holding `demoEdit`, no cache entries, and the original blob. -/
def demoStore : Store :=
  { edits := [demoEdit], strengthCache := [], editHistory := [], images := [0],
    nextImageId := 1 }

/-- A store where `demoEdit` has a cached strength-50 remix (image 5) and a
ledger entry at sequence 1. -/
def demoStoreCached : Store :=
  { edits := [demoEdit], strengthCache := [⟨1, 50, 5⟩],
    editHistory := [⟨1, 5, 100, SharpParams.zero, 1⟩], images := [0, 5],
    nextImageId := 6 }

/-! ## Theorems -/

/-- `jsRound` agrees with Mathlib's `round` (both are `⌊x + 1/2⌋`). -/
theorem jsRound_eq_round (x : ℚ) : jsRound x = round x := by
  rw [round_eq, Rat.floor_def, jsRound]

/-- `applyEditResult` never changes the row id. -/
theorem applyEditResult_id (e : EditRow) (img : ℕ) (s : String)
    (p rp : Option String) (es : Option ℤ) :
    (applyEditResult e img s p rp es).id = e.id := rfl

/-- Reading an edit after `updateEditResult` on the same id yields the
updated row. -/
theorem getEdit_updateEditResult (st : Store) (id : ℕ) (img : ℕ) (s : String)
    (p rp : Option String) (es : Option ℤ) :
    getEdit (updateEditResult st id img s p rp es) id =
      (getEdit st id).map (fun e => applyEditResult e img s p rp es) := by
  unfold getEdit updateEditResult
  dsimp only
  rw [List.filter_map]
  have hpred : ((fun e : EditRow => decide (e.id = id)) ∘ fun e =>
      if e.id = id then applyEditResult e img s p rp es else e) =
      fun e : EditRow => decide (e.id = id) := by
    funext e
    by_cases h : e.id = id <;> simp [h, applyEditResult_id]
  rw [hpred, List.head?_map]
  rcases hh : (st.edits.filter fun e => decide (e.id = id)).head? with _ | e
  · rw [hh]
    rfl
  · rw [hh]
    have hmem : e ∈ st.edits.filter fun e => decide (e.id = id) :=
      List.mem_of_mem_head? (Option.mem_def.mpr hh)
    have hid : e.id = id := by
      have := List.of_mem_filter hmem
      simpa using this
    simp only [Option.map_some']
    rw [if_pos hid]

/-- The strength-cache probe ignores edit-row updates. -/
theorem getCachedImageForStrength_update (st : Store) (id' img : ℕ) (s' : String)
    (p rp : Option String) (es : Option ℤ) (i : ℕ) (s : ℤ) :
    getCachedImageForStrength (updateEditResult st id' img s' p rp es) i s =
      getCachedImageForStrength st i s := rfl

/-- Probing the strength cache for an edit right after purging that edit's
entries always misses. -/
theorem getCachedImageForStrength_delete (st : Store) (i : ℕ) (s : ℤ) :
    getCachedImageForStrength (deleteStrengthCacheForEdit st i) i s = none := by
  unfold getCachedImageForStrength deleteStrengthCacheForEdit
  dsimp only
  rw [List.head?_eq_none_iff, List.filter_filter, List.filter_eq_nil_iff]
  intro c _
  simp only [Bool.and_eq_true, decide_eq_true_eq, not_and]
  rintro ⟨h1, _⟩ h2
  exact h2 h1

/-- On an accepted request the synchronous phase purges the cache exactly
when `clearCache` is set or the prompt changed, then writes the
`processing` status; this is its output shape. -/
theorem generateSync_ok (st : Store) (req : GenerateRequest) (edit : EditRow)
    (hp : ¬ req.prompt = "") (he : getEdit st req.id = some edit) :
    generateSync st req = .ok
      ⟨updateEditResult
          (if req.clearCache = true ∨ req.prompt ≠ edit.prompt then
            deleteStrengthCacheForEdit st req.id
          else st)
          req.id edit.currentImageId "processing" (some req.prompt)
          (jsTruthy edit.refinedPrompt) (some (req.effectStrength.getD 50)),
        edit, req.effectStrength.getD 50⟩ := by
  unfold generateSync
  rw [if_neg hp, he]

/-- Head of a filtered append when the left part is filtered away and the
appended element matches. -/
theorem head?_filter_append_singleton {α : Type} (p : α → Bool) (l : List α) (x : α)
    (h : l.filter p = []) (hx : p x = true) :
    ((l ++ [x]).filter p).head? = some x := by
  rw [List.filter_append, h]
  simp [hx]

/-- Reading an edit ignores strength-cache deletion. -/
theorem getEdit_delete (st : Store) (i id : ℕ) :
    getEdit (deleteStrengthCacheForEdit st i) id = getEdit st id := rfl

/-- Reading an edit ignores strength-cache inserts. -/
theorem getEdit_saveCachedImage (st : Store) (c : StrengthCacheRow) (id : ℕ) :
    getEdit (saveCachedImage st c) id = getEdit st id := rfl

/-- Reading an edit ignores blob-store writes. -/
theorem getEdit_saveImage (st : Store) (id : ℕ) :
    getEdit (saveImage st).1 id = getEdit st id := rfl

/-- Full outcome of `POST /api/generate/:id` on a cache hit with `clearCache`
unset and an unchanged prompt: complete from the cached image, zero
upstream calls, no table writes beyond the edit row. -/
theorem runGenerate_hit_eq (gen : ℕ → Option String) (cb : ℕ) (st : Store)
    (req : GenerateRequest) (edit : EditRow) (c : StrengthCacheRow)
    (hp : ¬ req.prompt = "") (hcc : req.clearCache = false)
    (he : getEdit st req.id = some edit) (hpe : req.prompt = edit.prompt)
    (hhit : getCachedImageForStrength st req.id (req.effectStrength.getD 50) = some c) :
    runGenerate gen cb st req =
      ⟨updateEditResult
          (updateEditResult st req.id edit.currentImageId "processing" (some req.prompt)
            (jsTruthy edit.refinedPrompt) (some (req.effectStrength.getD 50)))
          req.id c.imageId "completed" (some req.prompt)
          (some (jsOr edit.refinedPrompt req.prompt)) (some (req.effectStrength.getD 50)),
        none, 0⟩ := by
  unfold runGenerate
  rw [generateSync_ok st req edit hp he]
  have hnc : ¬(req.clearCache = true ∨ req.prompt ≠ edit.prompt) := by
    simp [hcc, hpe]
  rw [if_neg hnc]
  dsimp only
  unfold generateAsync
  rw [getCachedImageForStrength_update, hhit]

/-- Full outcome of `POST /api/generate/:id` on a cache miss (after the
possible purge) with a successful upstream call: exactly one generate call,
a fresh blob id, a new strength-cache entry, and completion on the fresh
image. -/
theorem runGenerate_miss_success_eq (gen : ℕ → Option String) (cb : ℕ) (st : Store)
    (req : GenerateRequest) (edit : EditRow) (rp : String)
    (hp : ¬ req.prompt = "")
    (he : getEdit st req.id = some edit)
    (hmiss : getCachedImageForStrength
      (if req.clearCache = true ∨ req.prompt ≠ edit.prompt then
        deleteStrengthCacheForEdit st req.id
      else st) req.id (req.effectStrength.getD 50) = none)
    (hsrc : st.images.contains
      (if req.refineFromCurrent then edit.currentImageId else edit.originalImageId) = true)
    (hgen : gen cb = some rp) :
    runGenerate gen cb st req =
      ⟨updateEditResult
          (saveCachedImage
            (saveImage (updateEditResult
              (if req.clearCache = true ∨ req.prompt ≠ edit.prompt then
                deleteStrengthCacheForEdit st req.id
              else st)
              req.id edit.currentImageId "processing" (some req.prompt)
              (jsTruthy edit.refinedPrompt) (some (req.effectStrength.getD 50)))).1
            ⟨req.id, req.effectStrength.getD 50, st.nextImageId⟩)
          req.id st.nextImageId "completed" (some req.prompt)
          (some ((jsTruthy edit.refinedPrompt).getD rp))
          (some (req.effectStrength.getD 50)),
        none, 1⟩ := by
  unfold runGenerate
  rw [generateSync_ok st req edit hp he]
  dsimp only
  set st1 := (if req.clearCache = true ∨ req.prompt ≠ edit.prompt then
      deleteStrengthCacheForEdit st req.id else st) with hst1
  unfold generateAsync
  rw [getCachedImageForStrength_update, hmiss]
  dsimp only
  rw [show (updateEditResult st1 req.id edit.currentImageId "processing" (some req.prompt)
      (jsTruthy edit.refinedPrompt) (some (req.effectStrength.getD 50))).images = st.images
    from (by rw [hst1]; split <;> rfl)]
  rw [if_pos hsrc, hgen]
  dsimp only
  rw [show (saveImage (updateEditResult st1 req.id edit.currentImageId "processing"
      (some req.prompt) (jsTruthy edit.refinedPrompt) (some (req.effectStrength.getD 50)))).2 =
      st.nextImageId from (by rw [hst1]; split <;> rfl)]
  rcases hjs : jsTruthy edit.refinedPrompt with _ | r <;> rfl

/-- Full outcome of `POST /api/natural-edit/:id` (direct-params mode) on an
edit-history cache hit: complete from the cached image, no Sharp
processing, no vision call, no ledger insert. -/
theorem runNaturalEdit_hit_eq (infer : SharpParams) (st : Store)
    (req : NaturalEditRequest) (edit : EditRow) (p : SharpParams) (c : EditHistoryRow)
    (hparams : req.params = some p)
    (he : getEdit st req.id = some edit)
    (hsrc : st.images.contains
      (if req.refineFromCurrent then edit.currentImageId else edit.originalImageId) = true)
    (hhit : getCachedNaturalEdit st req.id p (req.strengthPercent.getD 100) = some c) :
    runNaturalEdit infer st req =
      ⟨updateEditResult st req.id c.imageId "completed"
          (some (jsOr req.suggestionLabel
            (if req.prompt ≠ "" then "Natural edit: " ++ req.prompt else "Natural edit")))
          (some "") (some (req.strengthPercent.getD 100)),
        none, some c.imageId, true, 0, 0⟩ := by
  unfold runNaturalEdit
  rw [if_neg (by simp [hparams])]
  rw [he]
  dsimp only
  rw [if_pos hsrc, hparams]
  simp only [Option.getD_some, Option.isSome_some]
  rw [hhit]
  rfl

/-- C8: once `POST /api/generate/:id` accepts a request, the synchronous
phase has already written `status = processing`, and the whole route is the
asynchronous attempt run on that updated store — so a status read after
acceptance never sees a stale terminal state while work is underway. -/
theorem status_processing_before_async (st : Store) (req : GenerateRequest)
    (r : GenSyncOk) (hok : generateSync st req = .ok r) :
    editStatus r.store req.id = some "processing" := by
  unfold generateSync at hok
  by_cases hp : req.prompt = ""
  · rw [if_pos hp] at hok
    cases hok
  · rw [if_neg hp] at hok
    rcases he : getEdit st req.id with _ | edit
    · rw [he] at hok
      cases hok
    · rw [he] at hok
      dsimp only at hok
      cases hok
      unfold editStatus
      rw [getEdit_updateEditResult]
      have hq : getEdit
          (if req.clearCache = true ∨ req.prompt ≠ edit.prompt then
            deleteStrengthCacheForEdit st req.id
          else st) req.id = some edit := by
        split <;> exact he
      rw [hq]
      rfl

/-- C3: when the asynchronous attempt errors (upstream generate failure or
timeout), the edit ends in `status = failed` with `currentImageId` equal to
its value immediately prior to the attempt, and the identifying fields of
the row are untouched. -/
theorem failed_attempt_preserves_current_image (gen : ℕ → Option String) (cb : ℕ)
    (st : Store) (req : GenerateRequest) (edit : EditRow)
    (hp : ¬ req.prompt = "")
    (he : getEdit st req.id = some edit)
    (hmiss : getCachedImageForStrength st req.id (req.effectStrength.getD 50) = none)
    (hsrc : st.images.contains
      (if req.refineFromCurrent then edit.currentImageId else edit.originalImageId) = true)
    (hgen : gen cb = none) :
    (runGenerate gen cb st req).rejected = none ∧
    (runGenerate gen cb st req).generateCalls = 1 ∧
    ∃ row, getEdit (runGenerate gen cb st req).store req.id = some row ∧
      row.status = "failed" ∧
      row.currentImageId = edit.currentImageId ∧
      row.id = edit.id ∧ row.width = edit.width ∧ row.height = edit.height ∧
      row.originalImageId = edit.originalImageId ∧ row.title = edit.title := by
  unfold runGenerate
  rw [generateSync_ok st req edit hp he]
  dsimp only
  set st1 := (if req.clearCache = true ∨ req.prompt ≠ edit.prompt then
      deleteStrengthCacheForEdit st req.id else st) with hst1
  have hq : getEdit st1 req.id = some edit := by
    rw [hst1]
    split <;> exact he
  have hprobe : getCachedImageForStrength st1 req.id (req.effectStrength.getD 50) = none := by
    rw [hst1]
    split
    · exact getCachedImageForStrength_delete st req.id _
    · exact hmiss
  have himg : st1.images = st.images := by
    rw [hst1]
    split <;> rfl
  unfold generateAsync
  rw [getCachedImageForStrength_update, hprobe]
  dsimp only
  rw [show (updateEditResult st1 req.id edit.currentImageId "processing" (some req.prompt)
      (jsTruthy edit.refinedPrompt) (some (req.effectStrength.getD 50))).images = st.images
    from himg]
  rw [if_pos hsrc, hgen]
  refine ⟨rfl, rfl, ?_⟩
  rw [getEdit_updateEditResult, getEdit_updateEditResult, hq]
  exact ⟨_, rfl, rfl, rfl, rfl, rfl, rfl, rfl, rfl⟩

/-- C5: a generative request whose prompt differs from the stored
`Edit.prompt` purges the edit's entire `StrengthCache` set before the cache
is probed or written: the attempt makes exactly one upstream call, the
final cache holds only other edits' entries plus the single new entry, and
the completed image is the freshly saved blob — distinct from every
previously cached image of that edit. -/
theorem prompt_change_purges_strength_cache (gen : ℕ → Option String) (cb : ℕ)
    (st : Store) (req : GenerateRequest) (edit : EditRow) (rp : String)
    (hp : ¬ req.prompt = "")
    (he : getEdit st req.id = some edit)
    (hchanged : req.prompt ≠ edit.prompt)
    (hsrc : st.images.contains
      (if req.refineFromCurrent then edit.currentImageId else edit.originalImageId) = true)
    (hgen : gen cb = some rp)
    (hfresh : ∀ c ∈ st.strengthCache, c.imageId < st.nextImageId) :
    (runGenerate gen cb st req).generateCalls = 1 ∧
    (runGenerate gen cb st req).store.strengthCache =
      st.strengthCache.filter (fun c => ¬ c.editId = req.id) ++
        [⟨req.id, req.effectStrength.getD 50, st.nextImageId⟩] ∧
    editStatus (runGenerate gen cb st req).store req.id = some "completed" ∧
    editImage (runGenerate gen cb st req).store req.id = some st.nextImageId ∧
    ∀ c ∈ st.strengthCache, c.editId = req.id → st.nextImageId ≠ c.imageId := by
  have hmiss : getCachedImageForStrength
      (if req.clearCache = true ∨ req.prompt ≠ edit.prompt then
        deleteStrengthCacheForEdit st req.id
      else st) req.id (req.effectStrength.getD 50) = none := by
    rw [if_pos (Or.inr hchanged)]
    exact getCachedImageForStrength_delete st req.id _
  rw [runGenerate_miss_success_eq gen cb st req edit rp hp he hmiss hsrc hgen]
  rw [if_pos (Or.inr hchanged)]
  refine ⟨rfl, rfl, ?_, ?_, ?_⟩
  · unfold editStatus
    rw [getEdit_updateEditResult, getEdit_saveCachedImage, getEdit_saveImage,
      getEdit_updateEditResult, getEdit_delete, he]
    rfl
  · unfold editImage
    rw [getEdit_updateEditResult, getEdit_saveCachedImage, getEdit_saveImage,
      getEdit_updateEditResult, getEdit_delete, he]
    rfl
  · intro c hc _
    have := hfresh c hc
    omega

/-- Witness: `prompt_change_purges_strength_cache` on a store with a stale
cached image 5 at strength 50 and a changed prompt. -/
theorem prompt_change_purges_strength_cache_witness :
    (runGenerate (fun _ => some "rp") 0 demoStoreCached ⟨1, "new", false, some 50, false⟩).generateCalls = 1 ∧
    (runGenerate (fun _ => some "rp") 0 demoStoreCached ⟨1, "new", false, some 50, false⟩).store.strengthCache =
      demoStoreCached.strengthCache.filter (fun c => ¬ c.editId = 1) ++ [⟨1, 50, 6⟩] ∧
    editStatus (runGenerate (fun _ => some "rp") 0 demoStoreCached
      ⟨1, "new", false, some 50, false⟩).store 1 = some "completed" ∧
    editImage (runGenerate (fun _ => some "rp") 0 demoStoreCached
      ⟨1, "new", false, some 50, false⟩).store 1 = some 6 :=
  have h := prompt_change_purges_strength_cache (fun _ => some "rp") 0 demoStoreCached
    ⟨1, "new", false, some 50, false⟩ demoEdit "rp" (by decide) rfl (by decide) rfl rfl
    (by decide)
  ⟨h.1, h.2.1, h.2.2.1, h.2.2.2.1⟩

/-- C1: cache hits bypass the expensive path. (a) A generative request with
`clearCache` unset, an unchanged prompt and a cached strength completes
directly from the cached image: zero upstream calls, and no cache, ledger
or blob writes. (b) A parameter request whose `(editId, paramsKey,
strength)` is in the edit-history ledger completes directly from the cached
image: no Sharp processing, no vision call, no new ledger entry. (c) Hence
an identical generative request issued twice makes exactly one upstream
call overall and both runs complete pointing at the same image id. -/
theorem cache_hit_idempotent :
    (∀ (gen : ℕ → Option String) (cb : ℕ) (st : Store) (req : GenerateRequest)
      (edit : EditRow) (c : StrengthCacheRow),
      ¬ req.prompt = "" → req.clearCache = false →
      getEdit st req.id = some edit → req.prompt = edit.prompt →
      getCachedImageForStrength st req.id (req.effectStrength.getD 50) = some c →
      (runGenerate gen cb st req).generateCalls = 0 ∧
      editStatus (runGenerate gen cb st req).store req.id = some "completed" ∧
      editImage (runGenerate gen cb st req).store req.id = some c.imageId ∧
      (runGenerate gen cb st req).store.strengthCache = st.strengthCache ∧
      (runGenerate gen cb st req).store.editHistory = st.editHistory ∧
      (runGenerate gen cb st req).store.images = st.images) ∧
    (∀ (infer : SharpParams) (st : Store) (req : NaturalEditRequest)
      (edit : EditRow) (p : SharpParams) (c : EditHistoryRow),
      req.params = some p → getEdit st req.id = some edit →
      st.images.contains
        (if req.refineFromCurrent then edit.currentImageId else edit.originalImageId) = true →
      getCachedNaturalEdit st req.id p (req.strengthPercent.getD 100) = some c →
      (runNaturalEdit infer st req).sharpCalls = 0 ∧
      (runNaturalEdit infer st req).analyzeCalls = 0 ∧
      (runNaturalEdit infer st req).responseImageId = some c.imageId ∧
      editStatus (runNaturalEdit infer st req).store req.id = some "completed" ∧
      editImage (runNaturalEdit infer st req).store req.id = some c.imageId ∧
      (runNaturalEdit infer st req).store.editHistory = st.editHistory ∧
      (runNaturalEdit infer st req).store.strengthCache = st.strengthCache ∧
      (runNaturalEdit infer st req).store.images = st.images) ∧
    (∀ (gen : ℕ → Option String) (st : Store) (req : GenerateRequest)
      (edit : EditRow) (rp : String),
      ¬ req.prompt = "" → req.clearCache = false →
      getEdit st req.id = some edit →
      getCachedImageForStrength st req.id (req.effectStrength.getD 50) = none →
      st.images.contains
        (if req.refineFromCurrent then edit.currentImageId else edit.originalImageId) = true →
      gen 0 = some rp →
      (runGenerateTwice gen st req).1.generateCalls +
        (runGenerateTwice gen st req).2.generateCalls = 1 ∧
      editStatus (runGenerateTwice gen st req).1.store req.id = some "completed" ∧
      editImage (runGenerateTwice gen st req).1.store req.id = some st.nextImageId ∧
      editStatus (runGenerateTwice gen st req).2.store req.id = some "completed" ∧
      editImage (runGenerateTwice gen st req).2.store req.id = some st.nextImageId) := by
  refine ⟨?_, ?_, ?_⟩
  · intro gen cb st req edit c hp hcc he hpe hhit
    rw [runGenerate_hit_eq gen cb st req edit c hp hcc he hpe hhit]
    refine ⟨rfl, ?_, ?_, rfl, rfl, rfl⟩
    · unfold editStatus
      rw [getEdit_updateEditResult, getEdit_updateEditResult, he]
      rfl
    · unfold editImage
      rw [getEdit_updateEditResult, getEdit_updateEditResult, he]
      rfl
  · intro infer st req edit p c hparams he hsrc hhit
    rw [runNaturalEdit_hit_eq infer st req edit p c hparams he hsrc hhit]
    refine ⟨rfl, rfl, rfl, ?_, ?_, rfl, rfl, rfl⟩
    · unfold editStatus
      rw [getEdit_updateEditResult, he]
      rfl
    · unfold editImage
      rw [getEdit_updateEditResult, he]
      rfl
  · intro gen st req edit rp hp hcc he hmiss hsrc hgen
    have hmiss1 : getCachedImageForStrength
        (if req.clearCache = true ∨ req.prompt ≠ edit.prompt then
          deleteStrengthCacheForEdit st req.id
        else st) req.id (req.effectStrength.getD 50) = none := by
      split
      · exact getCachedImageForStrength_delete st req.id _
      · exact hmiss
    have hq : getEdit
        (if req.clearCache = true ∨ req.prompt ≠ edit.prompt then
          deleteStrengthCacheForEdit st req.id
        else st) req.id = some edit := by
      split <;> exact he
    unfold runGenerateTwice
    dsimp only
    rw [runGenerate_miss_success_eq gen 0 st req edit rp hp he hmiss1 hsrc hgen]
    dsimp only
    have he2 : getEdit
        (updateEditResult
          (saveCachedImage
            (saveImage (updateEditResult
              (if req.clearCache = true ∨ req.prompt ≠ edit.prompt then
                deleteStrengthCacheForEdit st req.id
              else st)
              req.id edit.currentImageId "processing" (some req.prompt)
              (jsTruthy edit.refinedPrompt) (some (req.effectStrength.getD 50)))).1
            ⟨req.id, req.effectStrength.getD 50, st.nextImageId⟩)
          req.id st.nextImageId "completed" (some req.prompt)
          (some ((jsTruthy edit.refinedPrompt).getD rp))
          (some (req.effectStrength.getD 50))) req.id =
        some (applyEditResult
          (applyEditResult edit edit.currentImageId "processing" (some req.prompt)
            (jsTruthy edit.refinedPrompt) (some (req.effectStrength.getD 50)))
          st.nextImageId "completed" (some req.prompt)
          (some ((jsTruthy edit.refinedPrompt).getD rp))
          (some (req.effectStrength.getD 50))) := by
      rw [getEdit_updateEditResult, getEdit_saveCachedImage, getEdit_saveImage,
        getEdit_updateEditResult, hq]
      rfl
    have hhit2 : getCachedImageForStrength
        (updateEditResult
          (saveCachedImage
            (saveImage (updateEditResult
              (if req.clearCache = true ∨ req.prompt ≠ edit.prompt then
                deleteStrengthCacheForEdit st req.id
              else st)
              req.id edit.currentImageId "processing" (some req.prompt)
              (jsTruthy edit.refinedPrompt) (some (req.effectStrength.getD 50)))).1
            ⟨req.id, req.effectStrength.getD 50, st.nextImageId⟩)
          req.id st.nextImageId "completed" (some req.prompt)
          (some ((jsTruthy edit.refinedPrompt).getD rp))
          (some (req.effectStrength.getD 50))) req.id (req.effectStrength.getD 50) =
        some ⟨req.id, req.effectStrength.getD 50, st.nextImageId⟩ := by
      show (((if req.clearCache = true ∨ req.prompt ≠ edit.prompt then
          deleteStrengthCacheForEdit st req.id
        else st).strengthCache ++
          [(⟨req.id, req.effectStrength.getD 50, st.nextImageId⟩ : StrengthCacheRow)]).filter
        (fun c : StrengthCacheRow =>
          decide (c.editId = req.id ∧ c.strength = req.effectStrength.getD 50))).head? =
        some ⟨req.id, req.effectStrength.getD 50, st.nextImageId⟩
      apply head?_filter_append_singleton
      · exact List.head?_eq_none_iff.mp hmiss1
      · simp
    rw [runGenerate_hit_eq gen 1 _ req _ ⟨req.id, req.effectStrength.getD 50, st.nextImageId⟩
      hp hcc he2 rfl hhit2]
    refine ⟨rfl, ?_, ?_, ?_, ?_⟩
    · unfold editStatus
      rw [he2]
      rfl
    · unfold editImage
      rw [he2]
      rfl
    · unfold editStatus
      rw [getEdit_updateEditResult, getEdit_updateEditResult, he2]
      rfl
    · unfold editImage
      rw [getEdit_updateEditResult, getEdit_updateEditResult, he2]
      rfl

/-- Witness: `cache_hit_idempotent` — a generative hit on the cached image
5 at strength 50, a parameter hit on the ledger entry, and the
issued-twice scenario yielding one upstream call with both runs at the
fresh image 1. -/
theorem cache_hit_idempotent_witness :
    (runGenerate (fun _ => none) 0 demoStoreCached ⟨1, "old", false, some 50, false⟩).generateCalls = 0 ∧
    editImage (runGenerate (fun _ => none) 0 demoStoreCached
      ⟨1, "old", false, some 50, false⟩).store 1 = some 5 ∧
    (runNaturalEdit SharpParams.zero demoStoreCached
      ⟨1, some SharpParams.zero, "", [], none, false, some 100⟩).sharpCalls = 0 ∧
    (runNaturalEdit SharpParams.zero demoStoreCached
      ⟨1, some SharpParams.zero, "", [], none, false, some 100⟩).responseImageId = some 5 ∧
    (runGenerateTwice (fun _ => some "rp") demoStore ⟨1, "p", false, some 50, false⟩).1.generateCalls +
      (runGenerateTwice (fun _ => some "rp") demoStore ⟨1, "p", false, some 50, false⟩).2.generateCalls = 1 ∧
    editImage (runGenerateTwice (fun _ => some "rp") demoStore
      ⟨1, "p", false, some 50, false⟩).1.store 1 = some 1 ∧
    editImage (runGenerateTwice (fun _ => some "rp") demoStore
      ⟨1, "p", false, some 50, false⟩).2.store 1 = some 1 :=
  have ha := cache_hit_idempotent.1 (fun _ => none) 0 demoStoreCached
    ⟨1, "old", false, some 50, false⟩ demoEdit ⟨1, 50, 5⟩ (by decide) rfl rfl rfl rfl
  have hb := cache_hit_idempotent.2.1 SharpParams.zero demoStoreCached
    ⟨1, some SharpParams.zero, "", [], none, false, some 100⟩ demoEdit SharpParams.zero
    ⟨1, 5, 100, SharpParams.zero, 1⟩ rfl rfl rfl rfl
  have hc := cache_hit_idempotent.2.2 (fun _ => some "rp") demoStore
    ⟨1, "p", false, some 50, false⟩ demoEdit "rp" (by decide) rfl rfl rfl rfl rfl
  ⟨ha.1, ha.2.2.1, hb.1, hb.2.2.1, hc.1, hc.2.2.1, hc.2.2.2.2⟩

/-- C4 fails on the code: `getNextSequence` is a bare `select max` with no
transaction or store-level increment, and every `await` in the natural-edit
handler is a suspension point. In the legal interleaving where two
concurrent requests both read the sequence before either inserts, both are
assigned sequence 1 for the same edit — a duplicate. -/
theorem concurrent_sequence_duplicate_counterexample :
    ((runTwoNaturalEditsRace ⟨[demoEdit], [], [], [0], 1⟩ 1 SharpParams.zero
        SharpParams.zero 100 100).editHistory.map
      (fun e => (e.editId, e.sequence))) = [(1, 1), (1, 1)] := rfl

/-- C4 (amended): under sequential execution `getNextSequence` is correct:
it returns 1 when the edit has no ledger entries, returns one more than the
maximum existing sequence (so the assigned number is strictly greater than
every existing sequence — strictly increasing, duplicate-free, gap-free
when writers are serialized); the read is not atomic, so the guarantee does
not extend to concurrent writers. -/
theorem getNextSequence_sequential_spec (st : Store) (editId : ℕ) :
    (seqsForEdit st editId = [] → getNextSequence st editId = 1) ∧
    (∀ q ∈ seqsForEdit st editId, q < getNextSequence st editId) ∧
    (seqsForEdit st editId ≠ [] →
      getNextSequence st editId - 1 ∈ seqsForEdit st editId) := by
  unfold getNextSequence
  rcases hm : (seqsForEdit st editId).max? with _ | m
  · rw [List.max?_eq_none_iff] at hm
    refine ⟨fun _ => rfl, ?_, fun hne => absurd hm hne⟩
    intro q hq
    rw [hm] at hq
    cases hq
  · refine ⟨?_, ?_, ?_⟩
    · intro hnil
      rw [hnil] at hm
      cases hm
    · intro q hq
      have hle := (List.max?_le_iff (fun _ _ _ => max_le_iff) hm).mp le_rfl
      have := hle q hq
      show q < m + 1
      omega
    · intro _
      have hmem := List.max?_mem (fun a b => max_choice a b) hm
      show m + 1 - 1 ∈ seqsForEdit st editId
      simpa using hmem

/-- Witness: `getNextSequence_sequential_spec` on the store whose edit 1 has
the single ledger sequence 1: the next sequence is 2, strictly above every
existing sequence, and 2 − 1 is an existing sequence. -/
theorem getNextSequence_sequential_spec_witness :
    (1 : ℤ) < getNextSequence demoStoreCached 1 ∧
    getNextSequence demoStoreCached 1 - 1 ∈ seqsForEdit demoStoreCached 1 :=
  ⟨(getNextSequence_sequential_spec demoStoreCached 1).2.1 1 (by decide),
   (getNextSequence_sequential_spec demoStoreCached 1).2.2 (by decide)⟩

/-- Witness: `failed_attempt_preserves_current_image` with an upstream
failure on the demo store. -/
theorem failed_attempt_preserves_current_image_witness :
    (runGenerate (fun _ => none) 0 demoStore ⟨1, "p", false, some 50, false⟩).rejected = none ∧
    (runGenerate (fun _ => none) 0 demoStore ⟨1, "p", false, some 50, false⟩).generateCalls = 1 ∧
    ∃ row, getEdit (runGenerate (fun _ => none) 0 demoStore
        ⟨1, "p", false, some 50, false⟩).store 1 = some row ∧
      row.status = "failed" ∧
      row.currentImageId = demoEdit.currentImageId ∧
      row.id = demoEdit.id ∧ row.width = demoEdit.width ∧ row.height = demoEdit.height ∧
      row.originalImageId = demoEdit.originalImageId ∧ row.title = demoEdit.title :=
  failed_attempt_preserves_current_image (fun _ => none) 0 demoStore
    ⟨1, "p", false, some 50, false⟩ demoEdit (by decide) rfl rfl rfl rfl

/-- Witness: `status_processing_before_async` on the demo store: after the
synchronous phase of a generate request, the row reads `processing`. -/
theorem status_processing_before_async_witness :
    editStatus (updateEditResult (deleteStrengthCacheForEdit demoStore 1) 1 0 "processing"
      (some "p") none (some 50)) 1 = some "processing" :=
  status_processing_before_async demoStore ⟨1, "p", false, some 50, false⟩
    ⟨updateEditResult (deleteStrengthCacheForEdit demoStore 1) 1 0 "processing"
      (some "p") none (some 50), demoEdit, 50⟩ rfl

/-- C6: the parameter scaler is the pure function multiplying each field by
`strength / 50`, rounding integer fields to the nearest integer and
`sharpen` to one decimal place; at strength 50 (factor 1) it returns any
vector with integer-valued integer fields and a one-decimal `sharpen`
unchanged. -/
theorem scaledParams_strength_50_identity (v : SharpParams)
    (b c s u n k : ℤ)
    (hb : v.brightness = b) (hc : v.contrast = c) (hs : v.saturation = s)
    (hu : v.hue = u) (hn : v.noise = n) (hk : v.sharpen * 10 = k) :
    scaledParams v 50 = v := by
  obtain ⟨vb, vc, vs, vu, vsh, vn⟩ := v
  dsimp only at hb hc hs hu hn hk
  subst hb hc hs hu hn
  have hsh : vsh = (k : ℚ) / 10 := by
    rw [eq_div_iff (by norm_num : (10 : ℚ) ≠ 0)]
    exact hk
  subst hsh
  have h1 : (50 : ℚ) / 50 = 1 := by norm_num
  simp only [scaledParams, h1, mul_one, jsRound_eq_round, SharpParams.mk.injEq]
  have harg : (k : ℚ) / 10 * 10 = (k : ℚ) := by
    field_simp
  refine ⟨by rw [round_intCast], by rw [round_intCast], by rw [round_intCast],
    by rw [round_intCast], ?_, by rw [round_intCast]⟩
  rw [harg, round_intCast]

/-- Witness: `scaledParams_strength_50_identity` at a concrete vector. -/
theorem scaledParams_strength_50_identity_witness :
    scaledParams ⟨30, -20, 10, 170, 7 / 10, 99⟩ 50 = ⟨30, -20, 10, 170, 7 / 10, 99⟩ :=
  scaledParams_strength_50_identity _ 30 (-20) 10 170 99 7
    (by norm_num) (by norm_num) (by norm_num) (by norm_num) (by norm_num) (by norm_num)

/-- C7 fails on the code: rounding collapses distinct strengths. At the
non-zero vector with brightness 1, strengths 50 and 51 scale to the same
output. -/
theorem scaledParams_distinctness_counterexample :
    scaledParams ⟨1, 0, 0, 0, 0, 0⟩ 50 = scaledParams ⟨1, 0, 0, 0, 0, 0⟩ 51 ∧
    (⟨1, 0, 0, 0, 0, 0⟩ : SharpParams) ≠ SharpParams.zero ∧ (50 : ℚ) ≠ 51 := by
  refine ⟨by norm_num [scaledParams, jsRound], ?_, by norm_num⟩
  intro h
  have hb := congrArg SharpParams.brightness h
  simp only [SharpParams.zero] at hb
  norm_num at hb

/-- C7 (amended): the exact, pre-rounding scaled vectors (the arguments of
`Math.round` in the source formula) are distinct for distinct strengths on
any non-zero vector; only the rounding to output precision can collapse
them. -/
theorem scaledParamsExact_distinct (v : SharpParams) (s1 s2 : ℚ)
    (hv : v ≠ SharpParams.zero) (hs : s1 ≠ s2) :
    scaledParamsExact v s1 ≠ scaledParamsExact v s2 := by
  intro heq
  apply hs
  obtain ⟨vb, vc, vs, vu, vsh, vn⟩ := v
  simp only [scaledParamsExact, SharpParams.mk.injEq] at heq
  obtain ⟨h1, h2, h3, h4, h5, h6⟩ := heq
  have hz : ¬(vb = 0 ∧ vc = 0 ∧ vs = 0 ∧ vu = 0 ∧ vsh = 0 ∧ vn = 0) := by
    rintro ⟨e1, e2, e3, e4, e5, e6⟩
    exact hv (by simp only [SharpParams.zero, e1, e2, e3, e4, e5, e6])
  have key : ∀ x : ℚ, x ≠ 0 → x * (s1 / 50) = x * (s2 / 50) → s1 = s2 := by
    intro x hx h
    have h' := mul_left_cancel₀ hx h
    have h'' := congrArg (fun t : ℚ => t * 50) h'
    simpa [div_mul_cancel₀] using h''
  by_cases e1 : vb = 0
  · by_cases e2 : vc = 0
    · by_cases e3 : vs = 0
      · by_cases e4 : vu = 0
        · by_cases e5 : vsh = 0
          · by_cases e6 : vn = 0
            · exact absurd ⟨e1, e2, e3, e4, e5, e6⟩ hz
            · exact key vn e6 h6
          · exact key vsh e5 h5
        · exact key vu e4 h4
      · exact key vs e3 h3
    · exact key vc e2 h2
  · exact key vb e1 h1

/-- Witness: `scaledParamsExact_distinct` at a concrete vector and strengths. -/
theorem scaledParamsExact_distinct_witness :
    scaledParamsExact ⟨1, 0, 0, 0, 0, 0⟩ 50 ≠ scaledParamsExact ⟨1, 0, 0, 0, 0, 0⟩ 51 :=
  scaledParamsExact_distinct ⟨1, 0, 0, 0, 0, 0⟩ 50 51
    (by
      intro h
      have hb := congrArg SharpParams.brightness h
      simp only [SharpParams.zero] at hb
      norm_num at hb)
    (by norm_num)

/-- C2: for a positive-dimension image, `padToSquare` produces the
`max(W,H)`-sided square, and `unpadFromSquare` applied to any returned
square with the produced `PadInfo` resizes to `S×S`, crops successfully
(the rectangle fits), and yields exactly `W×H`. -/
theorem pad_unpad_roundtrip (d : Dims) (returned : Dims)
    (hw : 0 < d.width) (hh : 0 < d.height) :
    (padToSquare d).1 = ⟨max d.width d.height, max d.width d.height⟩ ∧
    unpadFromSquare returned (padToSquare d).2 = some d := by
  obtain ⟨W, H⟩ := d
  dsimp only at hw hh
  constructor
  · simp only [padToSquare, Dims.mk.injEq]
    constructor <;> omega
  · have h1 : (max W H - W) / 2 + W ≤ max W H := by omega
    have h2 : (max W H - H) / 2 + H ≤ max W H := by omega
    have h3 : ¬(max W H = 0 ∨ max W H = 0) := by omega
    simp only [unpadFromSquare, padToSquare, resize, extract]
    rw [if_neg h3, Option.some_bind]
    dsimp only
    rw [if_pos ⟨h1, h2⟩]

/-- Witness: `pad_unpad_roundtrip` on a 1200×800 image with a 1024×1024
generator output. -/
theorem pad_unpad_roundtrip_witness :
    (padToSquare ⟨1200, 800⟩).1 = ⟨1200, 1200⟩ ∧
    unpadFromSquare ⟨1024, 1024⟩ (padToSquare ⟨1200, 800⟩).2 = some ⟨1200, 800⟩ := by
  have h := pad_unpad_roundtrip ⟨1200, 800⟩ ⟨1024, 1024⟩ (by decide) (by decide)
  simpa using h

/-- C10: the dimension probe returns the fixed fallback 1024×1024 for every
non-PNG mime type and for every PNG buffer of at most 24 bytes; for a PNG
buffer carrying width and height big-endian at bytes 16–23 (any 32-bit
values) it returns those true dimensions. -/
theorem dimension_probe_spec :
    (∀ buffer mime, mime ≠ "image/png" →
      getImageDimensionsFromBuffer buffer mime = (1024, 1024)) ∧
    (∀ buffer : List ℕ, buffer.length ≤ 24 →
      getImageDimensionsFromBuffer buffer "image/png" = (1024, 1024)) ∧
    (∀ w h, w < 2 ^ 32 → h < 2 ^ 32 →
      getImageDimensionsFromBuffer (pngHeader w h) "image/png" = (w, h)) := by
  refine ⟨?_, ?_, ?_⟩
  · intro buffer mime hm
    simp [getImageDimensionsFromBuffer, hm]
  · intro buffer hl
    rw [getImageDimensionsFromBuffer, if_neg (by omega)]
  · intro w h hw hh
    have hlen : (pngHeader w h).length = 25 := by
      simp [pngHeader, be32]
    rw [getImageDimensionsFromBuffer, if_pos ⟨rfl, by omega⟩]
    have hflat : pngHeader w h =
        [137, 80, 78, 71, 13, 10, 26, 10, 0, 0, 0, 13, 73, 72, 68, 82,
          w / 2 ^ 24 % 256, w / 2 ^ 16 % 256, w / 2 ^ 8 % 256, w % 256,
          h / 2 ^ 24 % 256, h / 2 ^ 16 % 256, h / 2 ^ 8 % 256, h % 256, 8] := by
      simp [pngHeader, be32]
    have h16 : readUInt32BE (pngHeader w h) 16 = w := by
      rw [hflat]
      show w / 2 ^ 24 % 256 * 2 ^ 24 + w / 2 ^ 16 % 256 * 2 ^ 16 +
        w / 2 ^ 8 % 256 * 2 ^ 8 + w % 256 = w
      omega
    have h20 : readUInt32BE (pngHeader w h) 20 = h := by
      rw [hflat]
      show h / 2 ^ 24 % 256 * 2 ^ 24 + h / 2 ^ 16 % 256 * 2 ^ 16 +
        h / 2 ^ 8 % 256 * 2 ^ 8 + h % 256 = h
      omega
    rw [h16, h20]

/-- Witness: `dimension_probe_spec` at concrete buffers. -/
theorem dimension_probe_spec_witness :
    getImageDimensionsFromBuffer [1, 2, 3] "image/jpeg" = (1024, 1024) ∧
    getImageDimensionsFromBuffer [] "image/png" = (1024, 1024) ∧
    getImageDimensionsFromBuffer (pngHeader 1200 800) "image/png" = (1200, 800) :=
  ⟨dimension_probe_spec.1 [1, 2, 3] "image/jpeg" (by decide),
   dimension_probe_spec.2.1 [] (by decide),
   dimension_probe_spec.2.2 1200 800 (by norm_num) (by norm_num)⟩

/-- C9 fails on the code: in `generateImageWithStrength`, the external
prompt-refinement call happens before the source image is decoded, so an
unreadable image produces its decode error only after an external call was
already attempted. The trace at an undecodable source shows the refine
call first. -/
theorem decode_after_refine_counterexample :
    (generateImageWithStrengthTrace none true true 1200 800).events =
      [GWSEvent.refineCall, GWSEvent.decodeFail] ∧
    (generateImageWithStrengthTrace none true true 1200 800).ok = false := by
  constructor <;> rfl

/-- C9 (amended): for an unreadable source image the attempt fails with the
decode error before the external image-generation call (which is never
reached), but after the prompt-refinement call, which is always attempted
first. -/
theorem decode_error_precedes_generation (refineOk execOk : Bool) (tw th : ℕ)
    (decode : Option Dims) (hd : decode = none) :
    (generateImageWithStrengthTrace decode refineOk execOk tw th).events =
      [GWSEvent.refineCall, GWSEvent.decodeFail] ∧
    (generateImageWithStrengthTrace decode refineOk execOk tw th).ok = false ∧
    GWSEvent.executeCall ∉ (generateImageWithStrengthTrace decode refineOk execOk tw th).events := by
  subst hd
  refine ⟨rfl, rfl, by simp [generateImageWithStrengthTrace]⟩

/-- Witness: `decode_error_precedes_generation` at a concrete call. -/
theorem decode_error_precedes_generation_witness :
    (generateImageWithStrengthTrace none false true 1200 800).events =
      [GWSEvent.refineCall, GWSEvent.decodeFail] ∧
    (generateImageWithStrengthTrace none false true 1200 800).ok = false ∧
    GWSEvent.executeCall ∉ (generateImageWithStrengthTrace none false true 1200 800).events :=
  decode_error_precedes_generation false true 1200 800 none rfl

end Aperture
